import Mathlib

/-! Verification development for `aioextensions` (src/src/aioextensions/__init__.py),
a bounded-concurrency task scheduler over Python asyncio.

The embedding is shallow: each Python construct the claims depend on is
translated into an executable Lean definition.  Concurrency is modelled by
quantifying over the scheduling choices the event loop could make (which
worker claims which stream index, when the stream-finished event is observed),
so theorems quantified over those choices hold for every interleaving.
-/

namespace Aioextensions

/-! Section: argument validation (`resolve`, lines 160-163)

```python
if workers < 1:
    raise ValueError('workers must be >= 1')
if worker_greediness < 0:
    raise ValueError('worker_greediness must be >= 0')
```
Raised exceptions are modelled as `Except.error` carrying the message. -/

def validateArgs (workers worker_greediness : Int) : Except String Unit :=
  if workers < 1 then Except.error "workers must be >= 1"
  else if worker_greediness < 0 then Except.error "worker_greediness must be >= 0"
  else Except.ok ()

/-! Section: generator call semantics of `resolve` (lines 153-203)

`resolve` contains `yield` (line 203), so in Python it is a *generator
function*: calling it executes none of its body and returns a suspended
generator object.  The body - validation included - first runs when the
generator is iterated (first `next`). -/

/-- A suspended `resolve` generator: the arguments are captured, nothing has
run yet.  `greediness` stands for the Python keyword `worker_greediness`. -/
structure ResolveGenerator where
  workers : Int
  greediness : Int
  deriving DecidableEq, Repr

/-- Worker capping (lines 165-166): `workers = min(workers, len(awaitables))`
when the input has `__len__`; otherwise `workers` is left as passed. -/
def capWorkers (workers : Int) (length? : Option Nat) : Int :=
  match length? with
  | some n => min workers (n : Int)
  | none => workers

/-- What happens *at the call site* of `resolve(...)`: Python creates the
generator without executing the body, so the call never raises - the result
is always `Except.ok` of the suspended generator. -/
def resolveCallTime (workers worker_greediness : Int) :
    Except String ResolveGenerator :=
  Except.ok ⟨workers, worker_greediness⟩

/-- Coordinator state right after the validation/capping prologue of the
generator body has run: the effective worker bound and how many tasks have
been started.  Workers are spawned only inside `get_one` (lines 195-196),
which no caller has reached yet, so `tasksStarted = 0` here by construction
of the body (lines 160-173 create only data structures). -/
structure CoordinatorInit where
  effectiveWorkers : Int
  tasksStarted : Nat
  deriving DecidableEq, Repr

/-- First iteration of the `resolve` generator: the body runs from the top -
validation (lines 160-163), then capping (lines 165-166), then the local
definitions - up to the first `yield` (line 203).  No worker is spawned and
no task is started on this path. -/
def ResolveGenerator.firstStep (g : ResolveGenerator) (length? : Option Nat) :
    Except String CoordinatorInit :=
  if g.workers < 1 then Except.error "workers must be >= 1"
  else if g.greediness < 0 then Except.error "worker_greediness must be >= 0"
  else Except.ok ⟨capWorkers g.workers length?, 0⟩

/-! Section: worker spawning (`start_workers`, lines 186-192)

```python
for index in range(workers):
    if stream_finished.is_set():
        break
    workers_tasks[index] = asyncio.create_task(worker())
    await force_loop_cycle()
```
`stream_finished` is an `asyncio.Event`: initially unset, set once by a worker
that observes the shared stream exhausted (line 184), and never cleared.  The
`await force_loop_cycle()` between spawns lets already-spawned workers run, so
whether the event is set at check `k` depends on scheduling; we model it as an
arbitrary function `finished : Nat -> Bool` giving the event state at each
check. -/

/-- Number of workers spawned by `start_workers`: the loop spawns at check
`k = 0, 1, ...` while the event is unset and `k < workers`, and breaks at the
first check where the event is set. -/
def spawnCount (workers : Nat) (finished : Nat → Bool) : Nat :=
  ((List.range workers).takeWhile (fun k => !finished k)).length

/-- Nat form of the capping on line 166 once `workers >= 1` is validated and
the input's `__len__` is `n`. -/
def capWorkersNat (workers n : Nat) : Nat := min workers n

/-- Workers spawned over a whole `resolve`/`collect` consumption:
`start_workers` is called only from `get_one` (lines 195-196), and `resolve`
yields one `get_one` per element of the enumerated input (lines 202-203), so
for an empty input `start_workers` never runs and zero workers are spawned. -/
def workersSpawnedDuringConsumption (n workers : Nat) (finished : Nat → Bool) :
    Nat :=
  if n = 0 then 0 else spawnCount workers finished

/-! Section: per-worker queue capacity (`worker`, line 176)

```python
done: asyncio.Queue = asyncio.Queue(worker_greediness)
```
`asyncio.Queue(maxsize)` semantics: if `maxsize <= 0` the queue size is
infinite and `put` never blocks; otherwise `await put(item)` blocks while the
queue holds `maxsize` items. -/

/-- Models `asyncio.Queue.full()` for a queue created with the given `maxsize`,
holding `qlen` items: a queue with `maxsize <= 0` is never full. -/
def asyncioQueueFull (maxsize : Int) (qlen : Nat) : Bool :=
  0 < maxsize && maxsize ≤ (qlen : Int)

/-- Whether a worker's `await done.put(future)` (line 181) blocks, given the
configured `worker_greediness` (the queue's `maxsize`, line 176) and the
number `qlen` of completed-but-unconsumed results already in its queue. -/
def workerPutBlocks (worker_greediness : Int) (qlen : Nat) : Bool :=
  asyncioQueueFull worker_greediness qlen

/-! Section: `ExecutorPool` (lines 108-140)

The pool attribute `_pool : Optional[Executor]` is the whole state.  Calls to
the underlying executor (`Executor.shutdown`, constructor) are externally
visible effects; we record them in an effect list so that "tears the old pool
down without waiting" is expressible. -/

/-- Which executor class the `ExecutorPool` wraps (constructor argument
`cls`, lines 110-117). -/
inductive PoolCls
  | processPoolExecutor
  | threadPoolExecutor
  deriving DecidableEq, Repr

/-- A constructed executor instance: `self._cls(max_workers=max_workers)`
(line 124). -/
structure PoolInstance where
  cls : PoolCls
  maxWorkers : Option Int
  deriving DecidableEq, Repr

/-- Externally visible calls made on underlying executors. -/
inductive PoolEffect
  | shutdownPool (p : PoolInstance) (wait : Bool)
  | createPool (p : PoolInstance)
  deriving DecidableEq, Repr

/-- State of one `ExecutorPool` object: its class and `self._pool`
(`None` until the first initialization, line 118). -/
structure PoolState where
  cls : PoolCls
  current : Option PoolInstance
  deriving DecidableEq, Repr

/-- Models `ExecutorPool.__init__` (lines 110-118): stores the class, `_pool = None`. -/
def mkPoolState (cls : PoolCls) : PoolState := ⟨cls, none⟩

/-- Models `ExecutorPool.initialize` (lines 120-124): if a pool instance
exists it is shut down with `wait=False`, then a fresh instance sized to
`max_workers` is constructed and installed. -/
def poolInit (s : PoolState) (maxWorkers : Option Int) :
    PoolState × List PoolEffect :=
  let fresh : PoolInstance := ⟨s.cls, maxWorkers⟩
  match s.current with
  | some p =>
      (⟨s.cls, some fresh⟩, [PoolEffect.shutdownPool p false,
                             PoolEffect.createPool fresh])
  | none => (⟨s.cls, some fresh⟩, [PoolEffect.createPool fresh])

/-- Models `ExecutorPool.shutdown` (lines 126-129): if a pool instance
exists, shut it down with the given `wait` and clear `_pool`; otherwise do
nothing. -/
def poolShutdown (s : PoolState) (wait : Bool) : PoolState × List PoolEffect :=
  match s.current with
  | some p => (⟨s.cls, none⟩, [PoolEffect.shutdownPool p wait])
  | none => (s, [])

/-- Models the `pool` property (lines 131-136): raises `RuntimeError` when
`_pool is None`, else returns the instance. -/
def poolAccessor (s : PoolState) : Except String PoolInstance :=
  match s.current with
  | none => Except.error "Must Call initialize first"
  | some p => Except.ok p

/-- Models the `initialized` property (lines 138-140):
`self._pool is not None`. -/
def poolIsInit (s : PoolState) : Bool := s.current.isSome

/-! Section: `schedule` (lines 223-237)

```python
wrapper = (loop or asyncio.get_event_loop()).create_future()
def _done_callback(future):
    if not wrapper.done():
        wrapper.set_result(future)
asyncio.create_task(awaitable).add_done_callback(_done_callback)
return wrapper
```
A completed task future holds the computation's outcome - value or captured
exception; `future.result()` returns the value or re-raises.  The wrapper is
a future of `TaskFuture`; `none` is the pending state. -/

/-- A completed asyncio task future: holds the outcome of the computation.
Exceptions raised by the computation are captured here, not propagated at
completion time. -/
structure TaskFuture (E α : Type) where
  outcome : Except E α

/-- Models `Future.result()`: return the value or re-raise the captured
exception. -/
def TaskFuture.result (f : TaskFuture E α) : Except E α := f.outcome

/-- Models `_done_callback` (lines 231-233): invoked when the task
completes; sets the wrapper's result to the task future itself unless the
wrapper is already done. -/
def doneCallback (wrapper : Option (TaskFuture E α))
    (taskFuture : TaskFuture E α) : Option (TaskFuture E α) :=
  match wrapper with
  | none => some taskFuture
  | some w => some w

/-- The value `schedule` returns to its caller: the freshly created wrapper,
still pending (line 229 creates it, line 237 returns it; the body contains no
`await` and raises nothing on behalf of the computation). -/
def scheduleCall (E α : Type) : Option (TaskFuture E α) := none

/-- Wrapper state at the instant the scheduled computation finishes with
`outcome`: asyncio fires the done callback on the wrapper as returned by
`schedule`, with no consumer involvement. -/
def wrapperAfterCompletion (E α : Type) (outcome : Except E α) :
    Option (TaskFuture E α) :=
  doneCallback (scheduleCall E α) ⟨outcome⟩

/-! Section: worker queues and the ordered consumer (`resolve`/`collect`, lines 168-220)

The worker loop (lines 175-184) claims `(index, awaitable)` pairs from the
shared `tee` iterator `stream`; `next` on a shared iterator hands out the
enumerated pairs one at a time, in enumeration order, each to exactly one
caller.  Hence each index is claimed by exactly one worker, and the indices
any single worker claims form an increasing subsequence of `0, ..., N-1`.
For each claimed index the worker records `store[index] = done` (line 178),
awaits the task's completion, and pushes the completed future onto its own
FIFO queue `done` (line 181) - so worker `w`'s queue receives, in order, the
outcomes of exactly the indices it claimed, in increasing index order.

Which worker claims which index depends on event-loop scheduling; we model it
by an arbitrary assignment `assign : Nat -> Nat` from indices to worker ids,
and prove the consumer-facing theorems for *every* assignment, i.e. for every
completion order the loop could produce.

The consumer side: `resolve` yields `get_one(index)` for `index = 0, ..., N-1`
(lines 202-203), and `collect` awaits them strictly in that order (lines
213-220).  `get_one(index)` (lines 194-200) looks up the queue recorded for
`index`, pops one item from it (`store.pop(index).get()`), and unwraps the
completed future (`(await awaitable).result()`), re-raising a captured
exception.  Since `get` suspends until an item is available, the value popped
is determined by the queue's FIFO push sequence alone, independent of
push/pop interleaving. -/

/-- The push sequence of worker `w`'s queue restricted to stream indices
`[k, k+m)`: the outcomes of the indices in that window assigned to `w`, in
increasing index order (see the worker loop, lines 177-181). -/
def workerPushesFrom (assign : Nat → Nat) (res : Nat → Except E α)
    (k m w : Nat) : List (Except E α) :=
  ((List.range' k m).filter (fun i => assign i == w)).map res

/-- Full push sequence of worker `w`'s queue for an input of `n` tasks whose
outcomes are `res`. -/
def workerPushes (assign : Nat → Nat) (res : Nat → Except E α)
    (n w : Nat) : List (Except E α) :=
  ((List.range n).filter (fun i => assign i == w)).map res

/-- The consumer's drain loop over the remaining positions to await:
for each position `i`, pop the head of the queue recorded for `i`
(`store.pop(index).get()`, line 198) and unwrap it (`.result()`, line 199).
`none` models a `get` that never completes (queue never receives an item);
an `Except.error` head makes `collect` stop with that error, discarding
nothing already accumulated: the result pairs the values resolved before the
stop with the optional error that ended the drain. -/
def drainFrom (assign : Nat → Nat) (qs : Nat → List (Except E α)) :
    List Nat → Option (List α × Option E)
  | [] => some ([], none)
  | i :: rest =>
    match qs (assign i) with
    | [] => none
    | Except.error e :: _ => some ([], some e)
    | Except.ok v :: tl =>
      Option.map (fun p => (v :: p.1, p.2))
        (drainFrom assign (Function.update qs (assign i) tl) rest)

/-- One full run of `collect` over `n` tasks with outcomes `res`, under the
claim assignment `assign`: drain positions `0, ..., n-1` in order from the
worker queues.  A result `(vs, none)` is the tuple `vs`; `(vs, some e)`
means positions `vs` were resolved and then the error `e` was raised,
leaving later positions undrained. -/
def collectRun (assign : Nat → Nat) (res : Nat → Except E α) (n : Nat) :
    Option (List α × Option E) :=
  drainFrom assign (workerPushes assign res n) (List.range n)

lemma drainFrom_nil (assign : Nat → Nat) (qs : Nat → List (Except E α)) :
    drainFrom assign qs [] = some ([], none) := rfl

lemma drainFrom_cons_ok (assign : Nat → Nat) (qs : Nat → List (Except E α))
    (i : Nat) (rest : List Nat) (v : α) (tl : List (Except E α))
    (h : qs (assign i) = Except.ok v :: tl) :
    drainFrom assign qs (i :: rest)
      = Option.map (fun p => (v :: p.1, p.2))
          (drainFrom assign (Function.update qs (assign i) tl) rest) := by
  have hstep : drainFrom assign qs (i :: rest)
      = match qs (assign i) with
        | [] => none
        | Except.error e :: _ => some ([], some e)
        | Except.ok v :: tl =>
          Option.map (fun p => (v :: p.1, p.2))
            (drainFrom assign (Function.update qs (assign i) tl) rest) := rfl
  rw [hstep, h]

lemma drainFrom_cons_error (assign : Nat → Nat) (qs : Nat → List (Except E α))
    (i : Nat) (rest : List Nat) (e : E) (tl : List (Except E α))
    (h : qs (assign i) = Except.error e :: tl) :
    drainFrom assign qs (i :: rest) = some ([], some e) := by
  have hstep : drainFrom assign qs (i :: rest)
      = match qs (assign i) with
        | [] => none
        | Except.error e :: _ => some ([], some e)
        | Except.ok v :: tl =>
          Option.map (fun p => (v :: p.1, p.2))
            (drainFrom assign (Function.update qs (assign i) tl) rest) := rfl
  rw [hstep, h]

lemma workerPushesFrom_self (assign : Nat → Nat) (res : Nat → Except E α)
    (k m : Nat) :
    workerPushesFrom assign res k (m + 1) (assign k)
      = res k :: workerPushesFrom assign res (k + 1) m (assign k) := by
  unfold workerPushesFrom
  rw [List.range'_succ, List.filter_cons]
  simp

lemma update_workerPushesFrom (assign : Nat → Nat) (res : Nat → Except E α)
    (k m : Nat) :
    Function.update (workerPushesFrom assign res k (m + 1)) (assign k)
        (workerPushesFrom assign res (k + 1) m (assign k))
      = workerPushesFrom assign res (k + 1) m := by
  funext w
  by_cases hw : w = assign k
  · subst hw
    rw [Function.update_same]
  · rw [Function.update_noteq hw]
    unfold workerPushesFrom
    rw [List.range'_succ, List.filter_cons]
    have hb : (assign k == w) = false := by
      simp only [beq_eq_false_iff_ne]
      exact fun h => hw h.symm
    simp [hb]

/-- Key invariant of the drain: starting at position `k` with `m` positions
left and queues holding exactly the window `[k, k+m)`, if every outcome in
the window is a value then the drain returns those values in index order. -/
lemma drainFrom_window_ok (assign : Nat → Nat) (res : Nat → Except E α)
    (v : Nat → α) :
    ∀ m k, (∀ i, k ≤ i → i < k + m → res i = Except.ok (v i)) →
      drainFrom assign (workerPushesFrom assign res k m) (List.range' k m)
        = some ((List.range' k m).map v, none) := by
  intro m
  induction m with
  | zero => intro k _; rfl
  | succ m ih =>
    intro k hok
    rw [List.range'_succ]
    have hres : res k = Except.ok (v k) := hok k le_rfl (by omega)
    have hq : workerPushesFrom assign res k (m + 1) (assign k)
        = Except.ok (v k) :: workerPushesFrom assign res (k + 1) m (assign k) := by
      rw [workerPushesFrom_self, hres]
    rw [drainFrom_cons_ok assign _ k _ _ _ hq, update_workerPushesFrom,
      ih (k + 1) (fun i h1 h2 => hok i (by omega) (by omega))]
    simp [List.range'_succ]

/-- Key invariant of the drain in the presence of a first error: if every
outcome at positions `[k, j)` is a value and position `j` (inside the
window) errors with `e`, the drain resolves exactly the values before `j`
and stops with `e`. -/
lemma drainFrom_window_error (assign : Nat → Nat) (res : Nat → Except E α)
    (v : Nat → α) (j : Nat) (e : E) :
    ∀ m k, (∀ i, k ≤ i → i < j → res i = Except.ok (v i)) →
      res j = Except.error e → k ≤ j → j < k + m →
      drainFrom assign (workerPushesFrom assign res k m) (List.range' k m)
        = some ((List.range' k (j - k)).map v, some e) := by
  intro m
  induction m with
  | zero => intro k _ _ _ hlt; omega
  | succ m ih =>
    intro k hok herr hkj hjm
    rw [List.range'_succ]
    rcases Nat.eq_or_lt_of_le hkj with hkj' | hkj'
    · subst hkj'
      have hq : workerPushesFrom assign res k (m + 1) (assign k)
          = Except.error e :: workerPushesFrom assign res (k + 1) m (assign k) := by
        rw [workerPushesFrom_self, herr]
      rw [drainFrom_cons_error assign _ k _ _ _ hq]
      simp
    · have hres : res k = Except.ok (v k) := hok k le_rfl hkj'
      have hq : workerPushesFrom assign res k (m + 1) (assign k)
          = Except.ok (v k) :: workerPushesFrom assign res (k + 1) m (assign k) := by
        rw [workerPushesFrom_self, hres]
      rw [drainFrom_cons_ok assign _ k _ _ _ hq, update_workerPushesFrom,
        ih (k + 1) (fun i h1 h2 => hok i (by omega) h2) herr (by omega) (by omega)]
      have hsplit : j - k = (j - (k + 1)) + 1 := by omega
      rw [hsplit, List.range'_succ]
      simp

lemma workerPushes_eq_from (assign : Nat → Nat) (res : Nat → Except E α)
    (n : Nat) : workerPushes assign res n = workerPushesFrom assign res 0 n := by
  funext w
  unfold workerPushes workerPushesFrom
  rw [List.range_eq_range']

/-- Lemma: `collectRun` with all-successful outcomes yields exactly the values in
input order, for every assignment of indices to workers. -/
lemma collectRun_ok (assign : Nat → Nat) (v : Nat → α) (n : Nat) :
    collectRun assign (fun i => (Except.ok (v i) : Except E α)) n
      = some ((List.range n).map v, none) := by
  unfold collectRun
  rw [workerPushes_eq_from, List.range_eq_range']
  exact drainFrom_window_ok assign _ v n 0 (fun i _ _ => rfl)

/-! Section: exclusive consumption of the indexed stream (lines 168-184, 202-203)

`stream, stream_copy = tee(enumerate(awaitables))` (line 170): the input is
enumerated once into `(index, awaitable)` pairs; `tee` hands both views the
same underlying elements without re-running the enumeration.  Workers share
`stream`: each `next` removes and returns the next pair, so if we record
which worker performed the `k`-th successful `next` as `sched k`, worker `w`
ends up claiming exactly the pairs at positions where `sched` names `w`.
`stream_copy` is used only in `for index, _ in stream_copy` (line 202),
reading the index component alone. -/

/-- The enumerated input: `enumerate(awaitables)` as a list of
`(index, task)` pairs. -/
def indexedStream (tasks : List τ) : List (Nat × τ) :=
  (List.range tasks.length).zip tasks

/-- The pairs claimed by worker `w` when the `k`-th `next()` on the shared
stream was executed by worker `sched k`: position `k` of the stream goes to
exactly the worker scheduled at `k`. -/
def workerClaims (sched : List Nat) (tasks : List τ) (w : Nat) :
    List (Nat × τ) :=
  ((sched.zip (indexedStream tasks)).filter (fun p => p.1 == w)).map Prod.snd

/-- The index-only view `stream_copy` as used on line 202: only the first
component of each enumerated pair is read. -/
def countingView (tasks : List τ) : List Nat :=
  (indexedStream tasks).map Prod.fst

lemma length_indexedStream (tasks : List τ) :
    (indexedStream tasks).length = tasks.length := by
  unfold indexedStream
  simp

lemma getElem_indexedStream (tasks : List τ) (k : Nat)
    (hk : k < (indexedStream tasks).length) (hk2 : k < tasks.length) :
    (indexedStream tasks)[k] = (k, tasks[k]) := by
  unfold indexedStream at *
  rw [List.getElem_zip]
  simp

/-- Membership characterisation: `(i, t)` is among worker `w`'s claims
exactly when position `i` of the stream exists, was scheduled to `w`, and
carries task `t`. -/
lemma mem_workerClaims_iff (sched : List Nat) (tasks : List τ) (w i : Nat)
    (t : τ) (hlen : sched.length = tasks.length) :
    (i, t) ∈ workerClaims sched tasks w ↔
      ∃ (hi : i < tasks.length), sched[i] = w ∧ t = tasks[i] := by
  unfold workerClaims
  constructor
  · intro hmem
    rcases List.mem_map.mp hmem with ⟨q, hq, hsnd⟩
    rcases List.mem_filter.mp hq with ⟨hzip, hbeq⟩
    rcases List.mem_iff_getElem.mp hzip with ⟨k, hk, hget⟩
    have hk1 : k < sched.length := by
      have := hk
      rw [List.length_zip, length_indexedStream] at this
      omega
    have hk2 : k < tasks.length := by
      have := hk
      rw [List.length_zip, length_indexedStream] at this
      omega
    rw [List.getElem_zip] at hget
    have hq1 : q.1 = sched[k] := by rw [← hget]
    have hq2 : q.2 = (k, tasks[k]) := by
      rw [← hget]
      exact getElem_indexedStream tasks k
        (by rw [length_indexedStream]; exact hk2) hk2
    rw [hq2] at hsnd
    have hik : k = i := (Prod.mk.injEq _ _ _ _).mp hsnd |>.1
    subst hik
    refine ⟨hk2, ?_, ?_⟩
    · rw [← hq1]
      exact beq_iff_eq.mp hbeq
    · exact ((Prod.mk.injEq _ _ _ _).mp hsnd |>.2).symm
  · rintro ⟨hi, hw, ht⟩
    apply List.mem_map.mpr
    refine ⟨(sched[i], (i, tasks[i])), ?_, ?_⟩
    · apply List.mem_filter.mpr
      constructor
      · apply List.mem_iff_getElem.mpr
        have hzl : i < (sched.zip (indexedStream tasks)).length := by
          rw [List.length_zip, length_indexedStream]
          omega
        refine ⟨i, hzl, ?_⟩
        rw [List.getElem_zip,
          getElem_indexedStream tasks i (by rw [length_indexedStream]; omega) hi]
      · simp [hw]
    · simp [ht]

/-! Section: claim theorems -/

/-- C1: for every N ≥ 0, workers ≥ 1 and worker_greediness ≥ 0, `collect`
over a sequence of N tasks returns a fixed ordered collection of exactly the
N task results in original input order, regardless of the order in which the
tasks complete internally: validation passes, and for *every* assignment of
stream indices to the (at most `min workers N`) spawned workers, draining
the worker queues in position order yields precisely the results of tasks
`0, ..., N-1`, in that order, with no error. -/
theorem collect_preserves_input_order (n workers wg : Nat)
    (assign : Nat → Nat) (v : Nat → α) (hw : 1 ≤ workers)
    (_hassign : ∀ i, i < n → assign i < capWorkersNat workers n) :
    validateArgs workers wg = Except.ok () ∧
    collectRun assign (fun i => (Except.ok (v i) : Except E α)) n
      = some ((List.range n).map v, none) := by
  constructor
  · unfold validateArgs
    rw [if_neg (by omega), if_neg (by omega)]
  · exact collectRun_ok assign v n

/-- Witness for C1 at N = 3, workers = 2, worker_greediness = 0, results
`i ↦ 10 * i`, with index i claimed by worker i % 2. -/
theorem collect_preserves_input_order_witness :
    (1 ≤ 2) ∧ (∀ i, i < 3 → i % 2 < capWorkersNat 2 3) ∧
    (validateArgs 2 0 = Except.ok () ∧
     collectRun (fun i => i % 2)
         (fun i => (Except.ok (10 * i) : Except String Nat)) 3
       = some ((List.range 3).map (fun i => 10 * i), none)) :=
  ⟨by decide, by decide,
    collect_preserves_input_order 3 2 0 (fun i => i % 2) (fun i => 10 * i)
      (by decide) (fun i hi => by
        simp only [capWorkersNat]
        omega)⟩

/-- C2: if the task at index k raises error e and all tasks before k
succeed, `collect` raises that same error when iteration reaches position
k: the drain resolves exactly the k results before it (and does not roll
them back) and then stops with e, never draining later positions — for
every assignment of indices to workers. -/
theorem collect_raises_first_error_at_position (n k : Nat)
    (assign : Nat → Nat) (res : Nat → Except E α) (v : Nat → α) (e : E)
    (hk : k < n) (hok : ∀ i, i < k → res i = Except.ok (v i))
    (he : res k = Except.error e) :
    collectRun assign res n = some ((List.range k).map v, some e) := by
  unfold collectRun
  rw [workerPushes_eq_from, List.range_eq_range',
    drainFrom_window_error assign res v k e n 0 (fun i _ h2 => hok i h2) he
      (Nat.zero_le k) (by omega), List.range_eq_range']
  simp

/-- Witness for C2 at N = 3 with the task at index 1 raising "boom" and all
indices claimed by worker 0. -/
theorem collect_raises_first_error_at_position_witness :
    (1 < 3) ∧
    ((fun i => if i = 1 then (Except.error "boom" : Except String Nat)
        else Except.ok (10 * i)) 1 = Except.error "boom") ∧
    collectRun (fun _ => 0)
        (fun i => if i = 1 then (Except.error "boom" : Except String Nat)
          else Except.ok (10 * i)) 3
      = some ((List.range 1).map (fun i => 10 * i), some "boom") :=
  ⟨by decide, rfl,
    collect_raises_first_error_at_position 3 1 (fun _ => 0)
      (fun i => if i = 1 then Except.error "boom" else Except.ok (10 * i))
      (fun i => 10 * i) "boom" (by decide)
      (fun i hi => by
        have h0 : i = 0 := by omega
        subst h0
        rfl)
      rfl⟩

/-- C3 is false on the code at worker_greediness = 0: the worker queue is
created as `asyncio.Queue(0)` (line 176), and an asyncio queue with
maxsize ≤ 0 is *infinite*, so a worker that holds one
completed-but-unconsumed result (queue length 1) does not block on
producing a second one, contrary to the claimed blocking behaviour. -/
theorem worker_put_no_block_at_zero_greediness :
    workerPutBlocks 0 1 = false := rfl

/-- C3 (amended): the worker queue is `asyncio.Queue(worker_greediness)`.
For worker_greediness ≥ 1, `put` blocks exactly when worker_greediness
completed results are unconsumed in the queue (so counting the result the
blocked worker holds, at most worker_greediness + 1 completions are in
flight per worker); for worker_greediness = 0 the queue is unbounded and
the worker never blocks — there is no backpressure. -/
theorem worker_queue_capacity_amended :
    (∀ qlen : Nat, workerPutBlocks 0 qlen = false) ∧
    (∀ (g qlen : Nat),
      (workerPutBlocks ((g : Int) + 1) qlen = true ↔ g + 1 ≤ qlen)) := by
  constructor
  · intro qlen
    simp [workerPutBlocks, asyncioQueueFull]
  · intro g qlen
    simp only [workerPutBlocks, asyncioQueueFull, Bool.and_eq_true,
      decide_eq_true_eq]
    omega

/-- C4 is false on the code: `resolve` is a generator function (its body
contains `yield`, line 203), so calling it — here with workers = 0 — returns
a suspended generator and raises nothing synchronously at the call site. -/
theorem resolve_call_returns_generator_without_raising :
    resolveCallTime 0 0 = Except.ok ⟨0, 0⟩ := rfl

/-- C4 (amended): with workers < 1 (or, workers being valid, with
worker_greediness < 0) the ValueError is raised at the *first iteration* of
the generator returned by `resolve` (hence surfaces while awaiting
`collect`), before any worker is spawned or any task starts executing; it
is not raised synchronously at the call site. -/
theorem resolve_validates_on_first_iteration (length? : Option Nat) :
    (∀ w g : Int, w < 1 →
      ResolveGenerator.firstStep ⟨w, g⟩ length?
        = Except.error "workers must be >= 1") ∧
    (∀ w g : Int, 1 ≤ w → g < 0 →
      ResolveGenerator.firstStep ⟨w, g⟩ length?
        = Except.error "worker_greediness must be >= 0") ∧
    (∀ (w g : Int) (c : CoordinatorInit),
      ResolveGenerator.firstStep ⟨w, g⟩ length? = Except.ok c →
      c.tasksStarted = 0) := by
  refine ⟨?_, ?_, ?_⟩
  · intro w g hw
    unfold ResolveGenerator.firstStep
    rw [if_pos hw]
  · intro w g hw hg
    unfold ResolveGenerator.firstStep
    rw [if_neg (show ¬(w < 1) by omega), if_pos hg]
  · intro w g c h
    unfold ResolveGenerator.firstStep at h
    split at h
    · exact absurd h (by simp)
    · split at h
      · exact absurd h (by simp)
      · injection h with h2
        rw [← h2]

/-- Witness for C4 (amended) at workers = 0, then at workers = 1 with
worker_greediness = -1, then on the success path, with input length 5. -/
theorem resolve_validates_on_first_iteration_witness :
    ResolveGenerator.firstStep ⟨0, 0⟩ (some 5)
        = Except.error "workers must be >= 1" ∧
    ResolveGenerator.firstStep ⟨1, -1⟩ (some 5)
        = Except.error "worker_greediness must be >= 0" ∧
    (⟨capWorkers 1 (some 5), 0⟩ : CoordinatorInit).tasksStarted = 0 :=
  ⟨(resolve_validates_on_first_iteration (some 5)).1 0 0 (by decide),
   (resolve_validates_on_first_iteration (some 5)).2.1 1 (-1) (by decide)
     (by decide),
   (resolve_validates_on_first_iteration (some 5)).2.2 1 0
     ⟨capWorkers 1 (some 5), 0⟩ rfl⟩

/-- C5: with input length N known, the requested worker count is capped to
min(workers, N) and `start_workers` spawns at most that many workers; for a
single task (N = 1) exactly one worker is spawned regardless of the
requested `workers`, because the stream-finished event is still unset at
the first spawn check — no worker exists yet that could have set it. -/
theorem spawned_workers_capped (workers n : Nat) (finished : Nat → Bool)
    (hw : 1 ≤ workers) (h0 : finished 0 = false) :
    spawnCount (capWorkersNat workers n) finished ≤ min workers n ∧
    spawnCount (capWorkersNat workers 1) finished = 1 := by
  constructor
  · unfold spawnCount
    calc ((List.range (capWorkersNat workers n)).takeWhile
            (fun k => !finished k)).length
        ≤ (List.range (capWorkersNat workers n)).length :=
          (List.takeWhile_sublist _).length_le
      _ = min workers n := by simp [capWorkersNat]
  · have hcap : capWorkersNat workers 1 = 1 := by
      unfold capWorkersNat
      omega
    rw [hcap]
    unfold spawnCount
    have h1 : List.range 1 = [0] := rfl
    rw [h1, List.takeWhile_cons]
    simp [h0]

/-- Witness for C5 at workers = 2, N = 3, with the stream-finished event
never observed set. -/
theorem spawned_workers_capped_witness :
    (1 ≤ 2) ∧ ((fun _ : Nat => false) 0 = false) ∧
    (spawnCount (capWorkersNat 2 3) (fun _ => false) ≤ min 2 3 ∧
     spawnCount (capWorkersNat 2 1) (fun _ => false) = 1) :=
  ⟨by decide, rfl, spawned_workers_capped 2 3 (fun _ => false) (by decide) rfl⟩

/-- C6: the pool accessor before any initialization raises the
not-initialized RuntimeError; `initialized` is true iff a pool instance
currently exists; initializing while an instance exists shuts the old
instance down with wait = False (not waiting on its in-flight work) and
installs a fresh instance sized to `max_workers`. -/
theorem executor_pool_accessor_and_replacement (cls : PoolCls)
    (p : PoolInstance) (mw : Option Int) (s : PoolState) :
    poolAccessor (mkPoolState cls) = Except.error "Must Call initialize first" ∧
    (poolIsInit s = true ↔ ∃ q, s.current = some q) ∧
    poolInit ⟨cls, some p⟩ mw
      = (⟨cls, some ⟨cls, mw⟩⟩,
         [PoolEffect.shutdownPool p false, PoolEffect.createPool ⟨cls, mw⟩]) := by
  refine ⟨rfl, ?_, rfl⟩
  simp [poolIsInit, Option.isSome_iff_exists]

/-- C7: `schedule` returns a still-pending wrapper to its caller (its body
contains no await and never raises on behalf of the computation); when the
computation finishes — with a value or a captured error, whether or not
anyone awaits the wrapper — the done callback resolves the wrapper with a
reference to the completed task future; an error surfaces only when
`result()` later unwraps that reference. -/
theorem schedule_wrapper_resolution (E α : Type) (outcome : Except E α)
    (v : α) (e : E) :
    scheduleCall E α = none ∧
    wrapperAfterCompletion E α outcome = some ⟨outcome⟩ ∧
    TaskFuture.result ⟨Except.ok v⟩ = (Except.ok v : Except E α) ∧
    TaskFuture.result ⟨Except.error e⟩ = (Except.error e : Except E α) :=
  ⟨rfl, rfl, rfl, rfl⟩

/-- C8: for empty input the drain over zero positions returns the empty
collection immediately with no error, zero workers are spawned during
consumption (`start_workers` is never invoked because no position is ever
pulled), and even the capped worker bound is zero. -/
theorem empty_input_empty_output_no_workers (workers : Nat)
    (finished : Nat → Bool) (assign : Nat → Nat) (res : Nat → Except E α) :
    collectRun assign res 0 = some ([], none) ∧
    workersSpawnedDuringConsumption 0 workers finished = 0 ∧
    capWorkersNat workers 0 = 0 := by
  refine ⟨rfl, rfl, ?_⟩
  simp [capWorkersNat]

/-- C9: the indexed stream is consumed exclusively: for every scheduling of
`next()` calls among workers that consumes the whole stream, each index
i < N together with its task lies in exactly one worker's claim list (no
duplication, no skipping); and the counting view reads only the index
components of the single enumeration, yielding 0, ..., N-1. -/
theorem indexed_stream_claimed_exclusively (sched : List Nat)
    (tasks : List τ) (i : Nat) (hlen : sched.length = tasks.length)
    (hi : i < tasks.length) :
    (∃! w, (i, tasks[i]) ∈ workerClaims sched tasks w) ∧
    countingView tasks = List.range tasks.length := by
  constructor
  · refine ⟨sched[i], ?_, ?_⟩
    · show (i, tasks[i]) ∈ workerClaims sched tasks (sched[i])
      rw [mem_workerClaims_iff sched tasks _ i _ hlen]
      exact ⟨hi, rfl, rfl⟩
    · intro w hw
      replace hw : (i, tasks[i]) ∈ workerClaims sched tasks w := hw
      rw [mem_workerClaims_iff sched tasks w i _ hlen] at hw
      rcases hw with ⟨_, hw2, _⟩
      exact hw2.symm
  · unfold countingView indexedStream
    apply List.map_fst_zip
    simp

/-- Witness for C9 with three tasks, the schedule giving indices 0 and 2 to
worker 0 and index 1 to worker 1, at index 2. -/
theorem indexed_stream_claimed_exclusively_witness :
    (([0, 1, 0] : List Nat).length = ([10, 20, 30] : List Nat).length) ∧
    ((2 : Nat) < ([10, 20, 30] : List Nat).length) ∧
    ((∃! w, ((2 : Nat), (30 : Nat)) ∈ workerClaims [0, 1, 0] [10, 20, 30] w) ∧
     countingView [10, 20, 30] = List.range ([10, 20, 30] : List Nat).length) :=
  ⟨rfl, by decide,
    indexed_stream_claimed_exclusively [0, 1, 0] [10, 20, 30] 2 rfl (by decide)⟩

/-- C10: `shutdown` is idempotent and total: with no pool instance it is a
no-op that raises nothing, produces no effect and leaves the state
unchanged; after any shutdown the pool is not initialized; a second
consecutive shutdown has no further effect. -/
theorem pool_shutdown_idempotent (cls : PoolCls) (w w2 : Bool)
    (s : PoolState) :
    poolShutdown (mkPoolState cls) w = (mkPoolState cls, []) ∧
    poolIsInit (poolShutdown s w).1 = false ∧
    poolShutdown (poolShutdown s w).1 w2 = ((poolShutdown s w).1, []) := by
  obtain ⟨c, cur⟩ := s
  refine ⟨rfl, ?_, ?_⟩ <;>
    cases cur <;> simp [poolShutdown, poolIsInit, mkPoolState]

end Aioextensions
